import Mathlib

/-!
Shallow embedding of `AI_Concentration/autoencoder_model.py`: an
autoencoder-based fraud/anomaly detection pipeline.  Tabular data is
modelled column-major (a data frame is a list of named columns), rational
numbers stand for finite floating-point values in the computable parts,
and real numbers are used where the source's mathematics is inherently
real-valued (standard scaling with a square root, sigmoid).
-/

/-- A single cell of a pandas data frame: a finite number, a string,
a missing value (NaN/None), or an infinity (which `replace` turns into
a missing value before the second `dropna`). -/
inductive Cell where
  | num (q : ℚ)
  | str (s : String)
  | null
  | posInf
  | negInf
deriving DecidableEq

/-- A data frame, column-major: a list of (column name, cells) pairs.
Well-formed frames have all columns of equal length. -/
abbrev DataFrame := List (String × List Cell)

/-- Errors raised by the modelled pandas operations. -/
inductive PdError where
  | keyError (col : String)
deriving DecidableEq

def col_id : String := "id"
def col_card_id : String := "card_id"
def col_customer_id : String := "customer_id"
def col_email : String := "email"
def col_address_city : String := "address_city"
def col_address_country : String := "address_country"
def col_name_on_card : String := "name_on_card"
def col_address_state : String := "address_state"
def col_amount : String := "amount"
def st_CA : String := "CA"
def st_NY : String := "NY"
def st_AZ : String := "AZ"

/-- The seven identifier / free-text columns dropped before modelling
(lines 51-52 and 127-129 of the source). -/
def identifierCols : List String :=
  [col_id, col_card_id, col_customer_id, col_email, col_address_city,
   col_address_country, col_name_on_card]

def dfNames (df : DataFrame) : List String := df.map Prod.fst

/-- Number of rows of a (well-formed) frame: the length of its first column. -/
def rowCount (df : DataFrame) : ℕ :=
  match df with
  | [] => 0
  | c :: _ => c.2.length

/-- Row `i` has no missing value in any column. -/
def keepRow (df : DataFrame) (i : ℕ) : Bool :=
  df.all (fun c => c.2.getD i Cell.null != Cell.null)

/-- `data.dropna()`: keep exactly the rows with no missing value. -/
def dropna (df : DataFrame) : DataFrame :=
  let keep := (List.range (rowCount df)).filter (keepRow df)
  df.map (fun c => (c.1, keep.map (fun i => c.2.getD i Cell.null)))

/-- `data.replace([np.inf, -np.inf], np.nan)` on one cell. -/
def replaceInfCell (c : Cell) : Cell :=
  match c with
  | Cell.posInf => Cell.null
  | Cell.negInf => Cell.null
  | c => c

def replace_inf (df : DataFrame) : DataFrame :=
  df.map (fun c => (c.1, c.2.map replaceInfCell))

/-- Lines 49-50 / 125-126: `dropna`, replace infinities by NaN, `dropna` again. -/
def cleanRows (df : DataFrame) : DataFrame :=
  dropna (replace_inf (dropna df))

/-- `data.drop(cols, axis=1)` with pandas' default `errors='raise'`:
raises `KeyError` as soon as one requested label is absent. -/
def drop_columns (cols : List String) (df : DataFrame) : Except PdError DataFrame :=
  match cols.find? (fun c => !((dfNames df).contains c)) with
  | some c => Except.error (PdError.keyError c)
  | none => Except.ok (df.filter (fun c => !(cols.contains c.1)))

/-- Dropping labels known to be present (no error possible). -/
def drop_columns_present (cols : List String) (df : DataFrame) : DataFrame :=
  df.filter (fun c => !(cols.contains c.1))

/-- `data[name]`: raises `KeyError` when the column is absent. -/
def getColumn (df : DataFrame) (name : String) : Except PdError (List Cell) :=
  match df.find? (fun c => c.1 == name) with
  | some c => Except.ok c.2
  | none => Except.error (PdError.keyError name)

/-- Total variant of column lookup (used only where presence is known). -/
def getColumnD (df : DataFrame) (name : String) : List Cell :=
  ((df.find? (fun c => c.1 == name)).map Prod.snd).getD []

/-- `data[name] = cells`: replace an existing column's cells. -/
def setColumn (df : DataFrame) (name : String) (cells : List Cell) : DataFrame :=
  df.map (fun c => if c.1 == name then (c.1, cells) else c)

/-- The key `LabelEncoder` sorts and compares (the column holds strings). -/
def cellKey (c : Cell) : String :=
  match c with
  | Cell.str s => s
  | _ => ""

/-- A string as its list of character codes. -/
def strKey (s : String) : List ℕ := s.data.map Char.toNat

/-- Lexicographic comparison of code sequences (Python's string order). -/
def keyLe : List ℕ → List ℕ → Bool
  | [], _ => true
  | _ :: _, [] => false
  | a :: as, b :: bs => if a < b then true else if b < a then false else keyLe as bs

/-- String comparison by code points, as `np.unique` sorts the values. -/
def str_le (a b : String) : Bool := keyLe (strKey a) (strKey b)

/-- `LabelEncoder.fit`: the classes are the sorted distinct values seen. -/
def label_classes (col : List String) : List String :=
  (List.insertionSort (fun a b => str_le a b = true) col).dedup

/-- The integer code a freshly fitted `LabelEncoder` assigns to `v`:
its position among the sorted distinct values of the fitted column. -/
def label_code (col : List String) (v : String) : ℕ :=
  (label_classes col).indexOf v

/-- `LabelEncoder().fit_transform(col)`. -/
def label_fit_transform (col : List String) : List ℕ :=
  col.map (label_code col)

/-- `label_encoder.fit_transform(data[column])` written back as numeric cells. -/
def encodeCells (cells : List Cell) : List Cell :=
  (label_fit_transform (cells.map cellKey)).map (fun k => Cell.num k)

/-- Lines 49-56: the preprocessing of `load_and_preprocess_data` —
clean rows, drop the seven identifier columns unconditionally, then
integer-encode `address_state` unconditionally. -/
def load_preprocess_columns (df : DataFrame) : Except PdError DataFrame :=
  match drop_columns identifierCols (cleanRows df) with
  | Except.error e => Except.error e
  | Except.ok d2 =>
    match getColumn d2 col_address_state with
    | Except.error e => Except.error e
    | Except.ok col => Except.ok (setColumn d2 col_address_state (encodeCells col))

/-- Line 127-129: the Scorer drops the seven identifier columns only when
all seven are present (`issubset` of the column set). -/
def cond_drop_identifiers (df : DataFrame) : DataFrame :=
  if identifierCols.all (fun c => (dfNames df).contains c) then
    drop_columns_present identifierCols df
  else df

/-- Lines 131-133: the Scorer integer-encodes `address_state` only when
that column is present, with a freshly fitted `LabelEncoder`. -/
def cond_encode_state (df : DataFrame) : Except PdError DataFrame :=
  if (dfNames df).contains col_address_state then
    match getColumn df col_address_state with
    | Except.error e => Except.error e
    | Except.ok col => Except.ok (setColumn df col_address_state (encodeCells col))
  else Except.ok df

/-- Lines 125-133: the preprocessing of `detect_and_evaluate_fraud`. -/
def detect_preprocess (df : DataFrame) : Except PdError DataFrame :=
  cond_encode_state (cond_drop_identifiers (cleanRows df))

/-- A concrete training frame: the seven identifier columns plus
`address_state` holding the states `CA` and `NY`. -/
def trainFrame : DataFrame :=
  [(col_id, [Cell.num 1, Cell.num 2]),
   (col_card_id, [Cell.num 11, Cell.num 12]),
   (col_customer_id, [Cell.num 21, Cell.num 22]),
   (col_email, [Cell.str st_NY, Cell.str st_CA]),
   (col_address_city, [Cell.num 31, Cell.num 32]),
   (col_address_country, [Cell.num 41, Cell.num 42]),
   (col_name_on_card, [Cell.num 51, Cell.num 52]),
   (col_address_state, [Cell.str st_CA, Cell.str st_NY])]

/-- A concrete scoring frame: no identifier columns, `address_state`
holding the states `AZ` and `CA`. -/
def scoreFrame : DataFrame :=
  [(col_amount, [Cell.num 3, Cell.num 4]),
   (col_address_state, [Cell.str st_AZ, Cell.str st_CA])]

/-- A concrete frame containing just one of the seven identifier columns. -/
def partialFrame : DataFrame :=
  [(col_id, [Cell.num 1]), (col_amount, [Cell.num 2])]

/-- Line 75: `anomalies = reconstruction_errors > threshold` in
`evaluate_model_performance` — elementwise strict comparison. -/
def anomaly_flags (errors : List ℚ) (threshold : ℚ) : List Bool :=
  errors.map (fun e => decide (threshold < e))

/-- Line 143: the identically written comparison in
`detect_and_evaluate_fraud`. -/
def detect_anomaly_flags (errors : List ℚ) (threshold : ℚ) : List Bool :=
  errors.map (fun e => decide (threshold < e))

/-- `np.argsort(errors)`: the indices `0..n-1` stably sorted by
ascending error value. -/
def np_argsort (errors : List ℚ) : List ℕ :=
  List.insertionSort (fun i j => errors.getD i 0 ≤ errors.getD j 0)
    (List.range errors.length)

/-- `np.argsort(errors)[-k:][::-1]` (line 94 with `k = 5`): the last `k`
positions of the ascending argsort, reversed. -/
def top_k (k : ℕ) (errors : List ℚ) : List ℕ :=
  ((np_argsort errors).drop ((np_argsort errors).length - k)).reverse

/-- The quantities `evaluate_model_performance` reports (lines 75-96). -/
structure EvalReport where
  num_anomalies : ℕ
  total_samples : ℕ
  top_anomalies : List ℕ
deriving DecidableEq

def evaluate_model_performance (errors : List ℚ) (threshold : ℚ) : EvalReport :=
  { num_anomalies := (anomaly_flags errors threshold).count true
    total_samples := errors.length
    top_anomalies := top_k 5 errors }

/-- The error array in ascending order (the sorting underlying
`np.percentile`). -/
def sorted_errors (l : List ℚ) : List ℚ :=
  List.insertionSort (fun a b => a ≤ b) l

/-- Sorted-array lookup with the index clamped to the last position.
For percentiles in `[0, 100]` the clamp only triggers where the
interpolation weight is zero, so it matches numpy's behaviour. -/
def sVal (s : List ℚ) (k : ℕ) : ℚ := s.getD (min k (s.length - 1)) 0

/-- Linear interpolation of the sorted values at virtual index `h`
(numpy's default `linear` method). -/
def interp (s : List ℚ) (h : ℚ) : ℚ :=
  sVal s (Int.toNat ⌊h⌋) +
    (h - ⌊h⌋) * (sVal s (Int.toNat ⌊h⌋ + 1) - sVal s (Int.toNat ⌊h⌋))

/-- `np.percentile(l, p)` (line 205): linear interpolation at virtual
index `p/100 * (n-1)` of the ascending sort. -/
def np_percentile (l : List ℚ) (p : ℚ) : ℚ :=
  interp (sorted_errors l) (p * ((l.length : ℚ) - 1) / 100)

/-- Keras activation functions used by `build_autoencoder`. -/
inductive Activation where
  | relu
  | sigmoid
deriving DecidableEq

/-- One Keras layer of the built model: the input placeholder, a dense
layer (width, activation, optional L2 regularization), or dropout. -/
inductive Layer where
  | input (dim : ℕ)
  | dense (width : ℕ) (act : Activation) (reg : Option ℚ)
  | dropout (rate : ℚ)
deriving DecidableEq

/-- One loop iteration of lines 22-25 / 28-31: a relu dense layer with L2
regularization, followed by a dropout layer only when the rate is
positive. -/
def dense_block (l2_reg dropout_rate : ℚ) (dim : ℕ) : List Layer :=
  Layer.dense dim Activation.relu (some l2_reg) ::
    (if 0 < dropout_rate then [Layer.dropout dropout_rate] else [])

/-- Lines 14-37: input layer, encoder blocks over `encoding_dims`,
decoder blocks over the reversed widths excluding the bottleneck
(`encoding_dims[:-1]` reversed), and a sigmoid output layer of the input
dimensionality with no regularizer. -/
def build_autoencoder (input_dim : ℕ) (encoding_dims : List ℕ)
    (l2_reg dropout_rate : ℚ) : List Layer :=
  [Layer.input input_dim]
    ++ encoding_dims.flatMap (dense_block l2_reg dropout_rate)
    ++ encoding_dims.dropLast.reverse.flatMap (dense_block l2_reg dropout_rate)
    ++ [Layer.dense input_dim Activation.sigmoid none]

/-- The widths of the dense layers, in order. -/
def dense_widths (layers : List Layer) : List ℕ :=
  layers.filterMap (fun l =>
    match l with
    | Layer.dense w _ _ => some w
    | _ => none)

/-- The real function computed by an activation. -/
noncomputable def Activation.apply : Activation → ℝ → ℝ
  | Activation.relu => fun x => max x 0
  | Activation.sigmoid => fun x => 1 / (1 + Real.exp (-x))

/-- Mean of one feature column (`StandardScaler`'s `mean_`). -/
noncomputable def colMean (c : List ℝ) : ℝ := c.sum / c.length

/-- Population variance of one feature column (`StandardScaler`'s `var_`,
computed with `ddof = 0`). -/
noncomputable def colVar (c : List ℝ) : ℝ :=
  ((c.map (fun x => (x - colMean c) ^ 2)).sum) / c.length

/-- sklearn's `_handle_zeros_in_scale`: a zero scale is replaced by 1 so
constant features map to zero instead of dividing by zero. -/
noncomputable def handle_zeros (s : ℝ) : ℝ := if s = 0 then 1 else s

/-- `StandardScaler`'s `scale_`: the square root of the variance, with
zeros replaced by 1. -/
noncomputable def scaleOf (c : List ℝ) : ℝ := handle_zeros (Real.sqrt (colVar c))

/-- `StandardScaler.fit_transform` on one column: center then divide by
the scale. -/
noncomputable def standardizeCol (c : List ℝ) : List ℝ :=
  c.map (fun x => (x - colMean c) / scaleOf c)

/-- Line 58-59: `scaler.fit_transform(data)`, column-major. -/
noncomputable def standard_scaler_fit_transform (m : List (List ℝ)) : List (List ℝ) :=
  m.map standardizeCol

/-- The fitted state of a `StandardScaler`: per-column mean and scale. -/
structure Scaler where
  mean : List ℝ
  scale : List ℝ

/-- The state `StandardScaler.fit` stores. -/
noncomputable def scaler_fit (m : List (List ℝ)) : Scaler :=
  { mean := m.map colMean
    scale := m.map scaleOf }

/-- `scaler.transform` (line 136): per-column centering and scaling with
the already-fitted statistics; reads the fitted state, never writes it. -/
noncomputable def scaler_transform (st : Scaler) (m : List (List ℝ)) : List (List ℝ) :=
  (m.zip (st.mean.zip st.scale)).map
    (fun p => p.1.map (fun x => (x - p.2.1) / p.2.2))

/-- Deterministic stand-in for numpy's seeded shuffling: a fixed
pseudorandom key per index, derived from the seed alone, so that the
permutation is a function of the seed and the length. -/
def shuffle_key (seed i : ℕ) : ℕ :=
  (1103515245 * (seed + 1000003 * i) + 12345) % 2147483648

/-- The permutation `train_test_split` applies for a given seed. -/
def seeded_perm (seed n : ℕ) : List ℕ :=
  List.insertionSort (fun i j => shuffle_key seed i ≤ shuffle_key seed j)
    (List.range n)

/-- `train_test_split(rows, test_size, random_state)` returning
`(train, test)`.  The `entropy` argument stands for the ambient process
randomness, consumed only when `random_state` is `None`; line 61 passes
`random_state=42`, so the entropy is discarded there. -/
noncomputable def train_test_split (rows : List (List ℝ)) (test_size : ℚ)
    (random_state : Option ℕ) (entropy : ℕ) :
    List (List ℝ) × List (List ℝ) :=
  let seed := match random_state with
    | some s => s
    | none => entropy
  let n_test := Int.toNat ⌈test_size * (rows.length : ℚ)⌉
  let perm := seeded_perm seed rows.length
  ((perm.drop n_test).map (fun i => rows.getD i []),
   (perm.take n_test).map (fun i => rows.getD i []))

/-- A preprocessed numeric frame as real-valued columns. -/
noncomputable def cellToReal (c : Cell) : ℝ :=
  match c with
  | Cell.num q => (q : ℝ)
  | _ => 0

noncomputable def frame_columns (df : DataFrame) : List (List ℝ) :=
  df.map (fun c => c.2.map cellToReal)

/-- Lines 40-62: `load_and_preprocess_data` — preprocess the columns,
fit-and-transform the scaler, split 80/20 with `random_state=42`, and
return the splits together with the fitted scaler. -/
noncomputable def load_and_preprocess_data (entropy : ℕ) (df : DataFrame) :
    Except PdError (List (List ℝ) × List (List ℝ) × Scaler) :=
  match load_preprocess_columns df with
  | Except.error e => Except.error e
  | Except.ok d =>
    let cols := frame_columns d
    let split := (standard_scaler_fit_transform cols).transpose
    let pair := train_test_split split (1 / 5) (some 42) entropy
    Except.ok (pair.1, pair.2, scaler_fit cols)

/-- Per-row mean squared reconstruction error (line 140). -/
noncomputable def mean_sq_diff (a b : List ℝ) : ℝ :=
  (((a.zip b).map (fun p => (p.1 - p.2) ^ 2)).sum) / a.length

/-- Lines 114-159: `detect_and_evaluate_fraud` — preprocess the new
frame, transform with the already-fitted scaler, compute per-row errors
of the model's reconstruction, and count strict threshold exceedances.
The scaler state is threaded through explicitly: the returned scaler is
the state after the call. -/
noncomputable def detect_and_evaluate_fraud (df : DataFrame)
    (model : List (List ℝ) → List (List ℝ)) (st : Scaler) (threshold : ℝ) :
    Except PdError ((List ℝ × ℕ) × Scaler) :=
  match detect_preprocess df with
  | Except.error e => Except.error e
  | Except.ok d =>
    let data_scaled := (scaler_transform st (frame_columns d)).transpose
    let errors := List.zipWith mean_sq_diff (model data_scaled) data_scaled
    Except.ok ((errors, errors.countP (fun e => decide (threshold < e))), st)

-- THEOREM ZONE

theorem dfNames_dropna (df : DataFrame) : dfNames (dropna df) = dfNames df := by
  simp [dfNames, dropna]

theorem dfNames_replace_inf (df : DataFrame) : dfNames (replace_inf df) = dfNames df := by
  simp [dfNames, replace_inf]

theorem dfNames_cleanRows (df : DataFrame) : dfNames (cleanRows df) = dfNames df := by
  simp [cleanRows, dfNames_dropna, dfNames_replace_inf]

theorem contains_true_iff {α : Type} [BEq α] [LawfulBEq α] {l : List α} {a : α} :
    l.contains a = true ↔ a ∈ l := List.elem_iff

theorem getColumn_of_mem {df : DataFrame} {name : String} (h : name ∈ dfNames df) :
    getColumn df name = Except.ok (getColumnD df name) := by
  unfold getColumn getColumnD
  cases hf : df.find? (fun c => c.1 == name) with
  | none =>
    exfalso
    obtain ⟨c, hc, hc1⟩ := List.mem_map.mp h
    have := List.find?_eq_none.mp hf c hc
    simp [hc1] at this
  | some c => simp

theorem getColumn_of_not_mem {df : DataFrame} {name : String} (h : name ∉ dfNames df) :
    getColumn df name = Except.error (PdError.keyError name) := by
  unfold getColumn
  cases hf : df.find? (fun c => c.1 == name) with
  | none => rfl
  | some c =>
    exfalso
    have h1 := List.find?_some hf
    simp only [beq_iff_eq] at h1
    have h2 : c ∈ df := List.mem_of_find?_eq_some hf
    exact h (List.mem_map.mpr ⟨c, h2, h1⟩)

theorem dfNames_setColumn (df : DataFrame) (name : String) (cells : List Cell) :
    dfNames (setColumn df name cells) = dfNames df := by
  unfold dfNames setColumn
  rw [List.map_map]
  apply List.map_congr_left
  intro c _
  by_cases h : c.1 = name <;> simp [h]

theorem getColumnD_setColumn_self {df : DataFrame} {name : String} (cells : List Cell)
    (h : name ∈ dfNames df) :
    getColumnD (setColumn df name cells) name = cells := by
  induction df with
  | nil => simp [dfNames] at h
  | cons c t ih =>
    by_cases hc : (c.1 == name) = true
    · simp [setColumn, getColumnD, List.find?, hc]
    · have hmem : name ∈ dfNames t := by
        rcases List.mem_map.mp h with ⟨x, hx, hx1⟩
        rcases List.mem_cons.mp hx with h1 | h2
        · exfalso; apply hc; simp [← h1, hx1]
        · exact List.mem_map.mpr ⟨x, h2, hx1⟩
      have := ih hmem
      simpa [setColumn, getColumnD, List.find?, hc] using this

theorem map_fst_filter (p : String → Bool) (df : DataFrame) :
    (df.filter (fun c => p c.1)).map Prod.fst = (df.map Prod.fst).filter p := by
  induction df with
  | nil => rfl
  | cons c t ih =>
    by_cases h : p c.1 = true <;> simp [List.filter_cons, h, ih]

theorem dfNames_drop_columns_present (cols : List String) (df : DataFrame) :
    dfNames (drop_columns_present cols df) =
      (dfNames df).filter (fun s => !(cols.contains s)) := by
  unfold dfNames drop_columns_present
  exact map_fst_filter (fun s => !(cols.contains s)) df

theorem drop_columns_ok_of_all {cols : List String} {df : DataFrame}
    (h : ∀ c ∈ cols, c ∈ dfNames df) :
    drop_columns cols df = Except.ok (drop_columns_present cols df) := by
  unfold drop_columns drop_columns_present
  cases hf : cols.find? (fun c => !((dfNames df).contains c)) with
  | none => rfl
  | some c =>
    exfalso
    have h1 := List.find?_some hf
    have h2 := List.mem_of_find?_eq_some hf
    have h3 : c ∈ dfNames df := h c h2
    rw [Bool.not_eq_true'] at h1
    exact (Bool.not_eq_true _).mpr h1 (contains_true_iff.mpr h3)

theorem drop_columns_error_of_missing {cols : List String} {df : DataFrame} {c : String}
    (hc : c ∈ cols) (hn : c ∉ dfNames df) :
    ∃ e, drop_columns cols df = Except.error e := by
  unfold drop_columns
  cases hf : cols.find? (fun c => !((dfNames df).contains c)) with
  | none =>
    exfalso
    have := List.find?_eq_none.mp hf c hc
    simp only [Bool.not_eq_true', Bool.not_eq_false] at this
    exact hn (contains_true_iff.mp this)
  | some x => exact ⟨_, rfl⟩

theorem addr_mem_cond_drop {df : DataFrame} (h : col_address_state ∈ dfNames df) :
    col_address_state ∈ dfNames (cond_drop_identifiers (cleanRows df)) := by
  have h1 : col_address_state ∈ dfNames (cleanRows df) := by
    rw [dfNames_cleanRows]; exact h
  unfold cond_drop_identifiers
  split
  · rw [dfNames_drop_columns_present]
    refine List.mem_filter.mpr ⟨h1, by decide⟩
  · exact h1

theorem detect_preprocess_ok (df : DataFrame) :
    ∃ r, detect_preprocess df = Except.ok r ∧
      dfNames r = dfNames (cond_drop_identifiers (cleanRows df)) ∧
      (col_address_state ∈ dfNames df →
        getColumnD r col_address_state =
          encodeCells (getColumnD (cond_drop_identifiers (cleanRows df)) col_address_state)) := by
  unfold detect_preprocess cond_encode_state
  by_cases hc : (dfNames (cond_drop_identifiers (cleanRows df))).contains col_address_state = true
  · have hmem := contains_true_iff.mp hc
    rw [if_pos hc, getColumn_of_mem hmem]
    refine ⟨_, rfl, dfNames_setColumn _ _ _, fun _ => ?_⟩
    exact getColumnD_setColumn_self _ hmem
  · rw [if_neg hc]
    refine ⟨_, rfl, rfl, fun h => ?_⟩
    exact absurd (contains_true_iff.mpr (addr_mem_cond_drop h)) hc

/-- Claim C1, counterexample: on a frame that lacks the identifier columns
(e.g. `email`) but has `address_state`, `load_and_preprocess_data`'s
preprocessing raises a `KeyError` instead of skipping the drop step. -/
theorem loader_raises_on_missing_column_example :
    (load_preprocess_columns scoreFrame).isOk = false := rfl

/-- Claim C1, amended: the training Loader applies the column drop and the
`address_state` encoding unconditionally, raising when an expected column
is absent; only the Scorer's preprocessing (`detect_and_evaluate_fraud`)
tolerates a schema mismatch by conditionally skipping the drop/encode
steps and always completing. -/
theorem loader_unconditional_scorer_conditional :
    (∀ df : DataFrame, ∀ c : String, c ∈ identifierCols → c ∉ dfNames df →
      (load_preprocess_columns df).isOk = false) ∧
    (∀ df : DataFrame, col_address_state ∉ dfNames df →
      (load_preprocess_columns df).isOk = false) ∧
    (∀ df : DataFrame, (detect_preprocess df).isOk = true) := by
  refine ⟨?_, ?_, ?_⟩
  · intro df c hc hn
    have hn2 : c ∉ dfNames (cleanRows df) := by rw [dfNames_cleanRows]; exact hn
    obtain ⟨e, he⟩ := drop_columns_error_of_missing hc hn2
    simp [load_preprocess_columns, he, Except.isOk, Except.toBool]
  · intro df h
    have h2 : col_address_state ∉ dfNames (cleanRows df) := by
      rw [dfNames_cleanRows]; exact h
    cases hd : drop_columns identifierCols (cleanRows df) with
    | error e => simp [load_preprocess_columns, hd, Except.isOk, Except.toBool]
    | ok d2 =>
      have hform : d2 = drop_columns_present identifierCols (cleanRows df) := by
        unfold drop_columns at hd
        cases hf : identifierCols.find?
            (fun c => !((dfNames (cleanRows df)).contains c)) with
        | none => rw [hf] at hd; unfold drop_columns_present; exact (Except.ok.inj hd).symm
        | some x => rw [hf] at hd; exact absurd hd (by simp)
      have h3 : col_address_state ∉ dfNames d2 := by
        intro hmem
        apply h2
        rw [hform, dfNames_drop_columns_present] at hmem
        exact (List.mem_filter.mp hmem).1
      simp [load_preprocess_columns, hd, getColumn_of_not_mem h3, Except.isOk, Except.toBool]
  · intro df
    obtain ⟨r, hr, -, -⟩ := detect_preprocess_ok df
    rw [hr]; rfl

/-- Applies the C1 statement at concrete frames: the Loader fails on a
frame missing `email`, while the Scorer's preprocessing completes on it. -/
theorem loader_unconditional_scorer_conditional_witness :
    (load_preprocess_columns partialFrame).isOk = false ∧
    (detect_preprocess partialFrame).isOk = true :=
  ⟨loader_unconditional_scorer_conditional.1 partialFrame col_email (by decide) (by decide),
   loader_unconditional_scorer_conditional.2.2 partialFrame⟩

/-- Claim C3, counterexample: a frame holding only `id` of the seven
identifier columns passes through the Scorer's preprocessing unchanged —
the present identifier column is NOT dropped, because the source drops
only when all seven are present at once. -/
theorem scorer_partial_identifier_not_dropped :
    detect_preprocess partialFrame = Except.ok partialFrame ∧
    col_id ∈ identifierCols ∧ col_id ∈ dfNames partialFrame :=
  ⟨rfl, by decide, by decide⟩

/-- Claim C3, amended: the Scorer drops the seven identifier columns
all-or-nothing — every one of them is dropped when all seven are present,
and none is dropped (columns unchanged) when at least one is absent;
`address_state` is freshly integer-encoded whenever it is present. -/
theorem scorer_drop_all_or_nothing_encode_conditional (df : DataFrame) :
    ((∀ c ∈ identifierCols, c ∈ dfNames df) →
      ∃ r, detect_preprocess df = Except.ok r ∧ ∀ c ∈ identifierCols, c ∉ dfNames r) ∧
    ((∃ c ∈ identifierCols, c ∉ dfNames df) →
      ∃ r, detect_preprocess df = Except.ok r ∧ dfNames r = dfNames df) ∧
    (col_address_state ∈ dfNames df →
      ∃ r, detect_preprocess df = Except.ok r ∧
        getColumnD r col_address_state =
          encodeCells (getColumnD (cond_drop_identifiers (cleanRows df))
            col_address_state)) := by
  obtain ⟨r, hr, hnames, hcol⟩ := detect_preprocess_ok df
  refine ⟨?_, ?_, fun h => ⟨r, hr, hcol h⟩⟩
  · intro hall
    refine ⟨r, hr, fun c hc hmem => ?_⟩
    rw [hnames] at hmem
    unfold cond_drop_identifiers at hmem
    have hcond : identifierCols.all
        (fun c => (dfNames (cleanRows df)).contains c) = true := by
      rw [List.all_eq_true]
      intro x hx
      exact contains_true_iff.mpr (by rw [dfNames_cleanRows]; exact hall x hx)
    rw [if_pos hcond, dfNames_drop_columns_present] at hmem
    have h5 := (List.mem_filter.mp hmem).2
    have h4 : identifierCols.contains c = true := contains_true_iff.mpr hc
    rw [h4] at h5
    exact absurd h5 (by decide)
  · intro ⟨c, hc, hcn⟩
    refine ⟨r, hr, ?_⟩
    rw [hnames]
    unfold cond_drop_identifiers
    have hcond : identifierCols.all
        (fun c => (dfNames (cleanRows df)).contains c) = false := by
      rw [← Bool.not_eq_true, List.all_eq_true]
      intro hforall
      exact hcn (by rw [← dfNames_cleanRows]; exact contains_true_iff.mp (hforall c hc))
    rw [if_neg (by rw [hcond]; exact Bool.false_ne_true), dfNames_cleanRows]

/-- Applies the C3 statement at a concrete frame containing only `id`
among the seven identifier columns: the column set is unchanged. -/
theorem scorer_drop_all_or_nothing_encode_conditional_witness :
    ∃ r, detect_preprocess partialFrame = Except.ok r ∧
      dfNames r = dfNames partialFrame :=
  (scorer_drop_all_or_nothing_encode_conditional partialFrame).2.1
    ⟨col_card_id, by decide, by decide⟩

/-- Claim C5: the Scorer refits a fresh `LabelEncoder` on the new
dataset's `address_state` column.  On a training table whose states are
`[CA, NY]` the code of `CA` is 0, while on a scoring dataset whose states
are `[AZ, CA]` the freshly fitted encoder assigns `CA` the code 1: the
same state value receives different integer codes in training and
scoring. -/
theorem scorer_label_encoder_refit :
    (load_preprocess_columns trainFrame).map
      (fun r => getColumnD r col_address_state) =
        Except.ok [Cell.num 0, Cell.num 1] ∧
    (detect_preprocess scoreFrame).map
      (fun r => getColumnD r col_address_state) =
        Except.ok [Cell.num 0, Cell.num 1] ∧
    label_code [st_CA, st_NY] st_CA = 0 ∧
    label_code [st_AZ, st_CA] st_CA = 1 ∧
    label_code [st_CA, st_NY] st_CA ≠ label_code [st_AZ, st_CA] st_CA :=
  ⟨rfl, rfl, by decide, by decide, by decide⟩

theorem np_argsort_perm (errors : List ℚ) :
    List.Perm (np_argsort errors) (List.range errors.length) :=
  List.perm_insertionSort _ _

theorem np_argsort_length (errors : List ℚ) :
    (np_argsort errors).length = errors.length := by
  rw [(np_argsort_perm errors).length_eq, List.length_range]

theorem np_argsort_sorted (errors : List ℚ) :
    List.Sorted (fun i j => errors.getD i 0 ≤ errors.getD j 0) (np_argsort errors) := by
  haveI : IsTotal ℕ (fun i j => errors.getD i 0 ≤ errors.getD j 0) :=
    ⟨fun a b => le_total _ _⟩
  haveI : IsTrans ℕ (fun i j => errors.getD i 0 ≤ errors.getD j 0) :=
    ⟨fun a b c => le_trans⟩
  exact List.sorted_insertionSort _ _

/-- Claim C2: for at least five samples, the reported top-5 list has
exactly five distinct valid indices, is sorted by non-increasing error,
every unreported index has error at most every reported one, and on the
spec example `[0.1, 0.9, 0.3, 0.05, 0.7]` with `k = 3` the indices are
`[1, 4, 2]`. -/
theorem top5_descending_largest (errors : List ℚ) (h5 : 5 ≤ errors.length) :
    (top_k 5 errors).length = 5 ∧
    (top_k 5 errors).Nodup ∧
    (∀ i ∈ top_k 5 errors, i < errors.length) ∧
    List.Sorted (fun a b => errors.getD b 0 ≤ errors.getD a 0) (top_k 5 errors) ∧
    (∀ j < errors.length, j ∉ top_k 5 errors →
      ∀ i ∈ top_k 5 errors, errors.getD j 0 ≤ errors.getD i 0) ∧
    top_k 3 [1/10, 9/10, 3/10, 1/20, 7/10] = [1, 4, 2] := by
  have hlen := np_argsort_length errors
  have hperm := np_argsort_perm errors
  have hsorted := np_argsort_sorted errors
  have hnodup : (np_argsort errors).Nodup :=
    hperm.nodup_iff.mpr (List.nodup_range _)
  have hback : List.Sublist
      ((np_argsort errors).drop ((np_argsort errors).length - 5)) (np_argsort errors) :=
    List.drop_sublist _ _
  have hmem_back : ∀ i ∈ (np_argsort errors).drop ((np_argsort errors).length - 5),
      i < errors.length := by
    intro i hi
    have : i ∈ np_argsort errors := hback.subset hi
    exact List.mem_range.mp (hperm.mem_iff.mp this)
  refine ⟨?_, ?_, ?_, ?_, ?_, ?_⟩
  · rw [top_k, List.length_reverse, List.length_drop, hlen]
    omega
  · rw [top_k, List.nodup_reverse]
    exact hnodup.sublist hback
  · intro i hi
    rw [top_k, List.mem_reverse] at hi
    exact hmem_back i hi
  · rw [top_k]
    exact List.pairwise_reverse.mpr (hsorted.sublist hback)
  · intro j hj hjt i hit
    rw [top_k, List.mem_reverse] at hit
    rw [top_k, List.mem_reverse] at hjt
    have hjl : j ∈ np_argsort errors :=
      hperm.mem_iff.mpr (List.mem_range.mpr hj)
    have hsplit :=
      List.take_append_drop ((np_argsort errors).length - 5) (np_argsort errors)
    have hpair : List.Pairwise (fun a b => errors.getD a 0 ≤ errors.getD b 0)
        ((np_argsort errors).take ((np_argsort errors).length - 5) ++
          (np_argsort errors).drop ((np_argsort errors).length - 5)) := by
      rw [hsplit]; exact hsorted
    obtain ⟨-, -, hcross⟩ := List.pairwise_append.mp hpair
    have hjtake : j ∈ (np_argsort errors).take ((np_argsort errors).length - 5) := by
      rcases List.mem_append.mp (by rw [hsplit]; exact hjl) with h | h
      · exact h
      · exact absurd h hjt
    exact hcross j hjtake i hit
  · norm_num [top_k, np_argsort, List.insertionSort, List.orderedInsert, List.range,
      List.range.loop, List.getD, List.getElem?_cons_zero, List.getElem?_cons_succ]

/-- Applies the C2 statement at the spec example array. -/
theorem top5_descending_largest_witness :
    (top_k 5 [1/10, 9/10, 3/10, 1/20, 7/10]).length = 5 :=
  (top5_descending_largest [1/10, 9/10, 3/10, 1/20, 7/10] (by simp)).1

/-- Claim C10: the Evaluator and the Scorer classify anomalies with the
same elementwise strict comparison: a sample is flagged exactly when its
error strictly exceeds the threshold, so a sample whose error equals the
threshold is classified normal. -/
theorem anomaly_strict (errors : List ℚ) (t : ℚ) :
    anomaly_flags errors t = detect_anomaly_flags errors t ∧
    ∀ i, i < errors.length →
      (((anomaly_flags errors t).getD i false = true) ↔ t < errors.getD i 0) ∧
      (errors.getD i 0 = t → (anomaly_flags errors t).getD i false = false) := by
  refine ⟨rfl, fun i hi => ?_⟩
  have hlen : i < (anomaly_flags errors t).length := by
    simpa [anomaly_flags] using hi
  have hget : (anomaly_flags errors t).getD i false = decide (t < errors.getD i 0) := by
    rw [List.getD_eq_getElem _ _ hlen, List.getD_eq_getElem _ _ hi]
    simp [anomaly_flags]
  constructor
  · rw [hget]; exact decide_eq_true_iff
  · intro he; rw [hget, he]; simp

/-- Applies the C10 statement at a concrete boundary sample: with errors
`[3, 2]` and threshold `2`, the sample with error exactly `2` is normal. -/
theorem anomaly_strict_witness :
    (anomaly_flags [3, 2] 2).getD 1 false = false :=
  ((anomaly_strict [3, 2] 2).2 1 (by decide)).2 (by decide)

theorem sorted_errors_sorted (l : List ℚ) :
    List.Sorted (fun a b => a ≤ b) (sorted_errors l) := by
  haveI : IsTotal ℚ (fun a b => a ≤ b) := ⟨fun a b => le_total a b⟩
  haveI : IsTrans ℚ (fun a b => a ≤ b) := ⟨fun a b c => le_trans⟩
  exact List.sorted_insertionSort _ _

theorem sVal_mono {s : List ℚ} (hs : List.Sorted (fun a b => a ≤ b) s)
    {j k : ℕ} (hjk : j ≤ k) : sVal s j ≤ sVal s k := by
  cases s with
  | nil => simp [sVal]
  | cons a t =>
    have hj : min j ((a :: t).length - 1) < (a :: t).length := by
      simp only [List.length_cons, Nat.add_sub_cancel]
      omega
    have hk : min k ((a :: t).length - 1) < (a :: t).length := by
      simp only [List.length_cons, Nat.add_sub_cancel]
      omega
    have hmin : min j ((a :: t).length - 1) ≤ min k ((a :: t).length - 1) := by omega
    haveI : IsRefl ℚ (fun a b => a ≤ b) := ⟨fun a => le_refl a⟩
    calc sVal (a :: t) j = (a :: t).get ⟨min j ((a :: t).length - 1), hj⟩ := by
          rw [List.get_eq_getElem]; exact List.getD_eq_getElem _ _ hj
      _ ≤ (a :: t).get ⟨min k ((a :: t).length - 1), hk⟩ :=
          hs.rel_get_of_le (Fin.mk_le_mk.mpr hmin)
      _ = sVal (a :: t) k := by
          rw [List.get_eq_getElem]; exact (List.getD_eq_getElem _ _ hk).symm

theorem interp_between {s : List ℚ} (hs : List.Sorted (fun a b => a ≤ b) s)
    {h : ℚ} (h0 : 0 ≤ h) :
    sVal s (Int.toNat ⌊h⌋) ≤ interp s h ∧
      interp s h ≤ sVal s (Int.toNat ⌊h⌋ + 1) := by
  have hf0 : (0 : ℚ) ≤ h - ⌊h⌋ := sub_nonneg.mpr (Int.floor_le h)
  have hf1 : h - ⌊h⌋ ≤ 1 := by
    have := Int.lt_floor_add_one h
    push_cast at this ⊢
    linarith
  have hd : (0 : ℚ) ≤ sVal s (Int.toNat ⌊h⌋ + 1) - sVal s (Int.toNat ⌊h⌋) :=
    sub_nonneg.mpr (sVal_mono hs (Nat.le_succ _))
  constructor
  · unfold interp
    nlinarith
  · unfold interp
    nlinarith

theorem interp_mono {s : List ℚ} (hs : List.Sorted (fun a b => a ≤ b) s)
    {h1 h2 : ℚ} (h0 : 0 ≤ h1) (h12 : h1 ≤ h2) : interp s h1 ≤ interp s h2 := by
  have hfl : ⌊h1⌋ ≤ ⌊h2⌋ := Int.floor_mono h12
  rcases eq_or_lt_of_le hfl with heq | hlt
  · have hd : (0 : ℚ) ≤ sVal s (Int.toNat ⌊h1⌋ + 1) - sVal s (Int.toNat ⌊h1⌋) :=
      sub_nonneg.mpr (sVal_mono hs (Nat.le_succ _))
    unfold interp
    rw [← heq]
    nlinarith
  · have h20 : 0 ≤ h2 := le_trans h0 h12
    have hsucc : Int.toNat ⌊h1⌋ + 1 ≤ Int.toNat ⌊h2⌋ := by
      have hpos : 0 ≤ ⌊h1⌋ := Int.floor_nonneg.mpr h0
      omega
    calc interp s h1 ≤ sVal s (Int.toNat ⌊h1⌋ + 1) := (interp_between hs h0).2
      _ ≤ sVal s (Int.toNat ⌊h2⌋) := sVal_mono hs hsucc
      _ ≤ interp s h2 := (interp_between hs h20).1

/-- Claim C6: for a fixed error array, the percentile threshold of
line 205 is monotonically non-decreasing in the percentile. -/
theorem percentile_monotone (l : List ℚ) (p1 p2 : ℚ) (hl : l ≠ [])
    (h0 : 0 ≤ p1) (h12 : p1 ≤ p2) (h100 : p2 ≤ 100) :
    np_percentile l p1 ≤ np_percentile l p2 := by
  have hs := sorted_errors_sorted l
  have hn : 1 ≤ l.length := List.length_pos.mpr hl
  have hq : (0 : ℚ) ≤ (l.length : ℚ) - 1 := by
    have : (1 : ℚ) ≤ (l.length : ℚ) := by exact_mod_cast hn
    linarith
  unfold np_percentile
  apply interp_mono hs
  · exact div_nonneg (mul_nonneg h0 hq) (by norm_num)
  · exact (div_le_div_iff_of_pos_right (by norm_num)).mpr (mul_le_mul_of_nonneg_right h12 hq)

/-- Applies the C6 statement at the concrete array `[1, 2, 3]` with
percentiles 25 and 75. -/
theorem percentile_monotone_witness :
    np_percentile [1, 2, 3] 25 ≤ np_percentile [1, 2, 3] 75 :=
  percentile_monotone [1, 2, 3] 25 75 (by simp) (by norm_num) (by norm_num) (by norm_num)

theorem dense_widths_append (a b : List Layer) :
    dense_widths (a ++ b) = dense_widths a ++ dense_widths b :=
  List.filterMap_append _ _ _

theorem dense_widths_block (l2 rate : ℚ) (w : ℕ) :
    dense_widths (dense_block l2 rate w) = [w] := by
  by_cases h : 0 < rate <;> simp [dense_block, dense_widths, h]

theorem dense_widths_flatMap (xs : List ℕ) (l2 rate : ℚ) :
    dense_widths (xs.flatMap (dense_block l2 rate)) = xs := by
  induction xs with
  | nil => rfl
  | cons x t ih =>
    rw [List.flatMap_cons, dense_widths_append, dense_widths_block, ih]
    rfl

theorem dense_widths_input (d : ℕ) : dense_widths [Layer.input d] = [] := rfl

theorem dense_widths_single (d : ℕ) (a : Activation) (r : Option ℚ) :
    dense_widths [Layer.dense d a r] = [d] := rfl

/-- Claim C4: for every input dimensionality and non-empty width list,
the built network's dense widths are the encoder widths, then the
reversed widths excluding the bottleneck, then an output layer of
exactly the input width; the output layer's activation is the sigmoid,
whose values lie in `[0, 1]`. -/
theorem build_autoencoder_shape (d : ℕ) (dims : List ℕ) (l2 rate : ℚ)
    (hne : dims ≠ []) :
    dense_widths (build_autoencoder d dims l2 rate) =
      dims ++ dims.dropLast.reverse ++ [d] ∧
    (build_autoencoder d dims l2 rate).getLast? =
      some (Layer.dense d Activation.sigmoid none) ∧
    ∀ x : ℝ, Activation.apply Activation.sigmoid x ∈ Set.Icc (0 : ℝ) 1 := by
  refine ⟨?_, ?_, ?_⟩
  · simp only [build_autoencoder, dense_widths_append, dense_widths_flatMap,
      dense_widths_input, dense_widths_single, List.nil_append, List.append_assoc]
  · rw [build_autoencoder]
    rw [show [Layer.input d] ++ dims.flatMap (dense_block l2 rate)
          ++ dims.dropLast.reverse.flatMap (dense_block l2 rate)
          ++ [Layer.dense d Activation.sigmoid none]
        = ([Layer.input d] ++ dims.flatMap (dense_block l2 rate)
          ++ dims.dropLast.reverse.flatMap (dense_block l2 rate))
          ++ [Layer.dense d Activation.sigmoid none] by
      simp [List.append_assoc]]
    exact List.getLast?_concat _
  · intro x
    have hexp := Real.exp_pos (-x)
    have happ : Activation.apply Activation.sigmoid x = 1 / (1 + Real.exp (-x)) := rfl
    rw [Set.mem_Icc, happ]
    constructor
    · positivity
    · rw [div_le_one (by positivity)]
      linarith

/-- Applies the C4 statement at input width 4 and encoder widths
`[3, 2]`: the dense widths come out as `[3, 2, 3, 4]`. -/
theorem build_autoencoder_shape_witness :
    dense_widths (build_autoencoder 4 [3, 2] 1 1) = [3, 2, 3, 4] :=
  ((build_autoencoder_shape 4 [3, 2] 1 1 (by simp)).1).trans (by decide)

theorem sum_map_center_div (c : List ℝ) (m s : ℝ) :
    (c.map (fun x => (x - m) / s)).sum = (c.sum - c.length * m) / s := by
  induction c with
  | nil => simp
  | cons a t ih =>
    simp only [List.map_cons, List.sum_cons, ih, List.length_cons]
    rw [div_add_div_same]
    congr 1
    push_cast
    ring

theorem sum_map_center_sq_div (c : List ℝ) (m s : ℝ) :
    ((c.map (fun x => (x - m) / s)).map (fun x => x ^ 2)).sum =
      (c.map (fun x => (x - m) ^ 2)).sum / s ^ 2 := by
  rw [List.map_map]
  induction c with
  | nil => simp
  | cons a t ih =>
    simp only [List.map_cons, List.sum_cons, Function.comp] at ih ⊢
    rw [ih, div_pow, div_add_div_same]

theorem colMean_standardize (c : List ℝ) : colMean (standardizeCol c) = 0 := by
  rcases eq_or_ne c [] with rfl | hne
  · simp [standardizeCol, colMean]
  · have hpos : 0 < c.length := List.length_pos.mpr hne
    have hn : (c.length : ℝ) ≠ 0 := by positivity
    unfold colMean standardizeCol
    rw [List.length_map, sum_map_center_div]
    have hz : c.sum - (c.length : ℝ) * (c.sum / c.length) = 0 := by
      field_simp
    unfold colMean
    rw [hz, zero_div, zero_div]

theorem colVar_nonneg (c : List ℝ) : 0 ≤ colVar c := by
  unfold colVar
  apply div_nonneg _ (by positivity)
  apply List.sum_nonneg
  intro x hx
  obtain ⟨y, _, rfl⟩ := List.mem_map.mp hx
  positivity

theorem colVar_standardize (c : List ℝ) (hv : colVar c ≠ 0) :
    colVar (standardizeCol c) = 1 := by
  have hne : c ≠ [] := by
    rintro rfl
    simp [colVar, colMean] at hv
  have hlen : (0 : ℝ) < c.length := by
    exact_mod_cast List.length_pos.mpr hne
  have hn : (c.length : ℝ) ≠ 0 := ne_of_gt hlen
  have hvpos : 0 < colVar c := lt_of_le_of_ne (colVar_nonneg c) (Ne.symm hv)
  have hs : 0 < Real.sqrt (colVar c) := Real.sqrt_pos.mpr hvpos
  have hscale : scaleOf c = Real.sqrt (colVar c) := by
    unfold scaleOf handle_zeros
    rw [if_neg (ne_of_gt hs)]
  have hs2 : Real.sqrt (colVar c) ^ 2 = colVar c := Real.sq_sqrt (colVar_nonneg c)
  have hsum : (c.map (fun x => (x - colMean c) ^ 2)).sum = colVar c * c.length := by
    unfold colVar
    field_simp
  have hmean0 := colMean_standardize c
  unfold colVar
  rw [hmean0]
  simp only [sub_zero, standardizeCol, List.length_map]
  rw [sum_map_center_sq_div, hsum, hscale, hs2]
  field_simp

/-- Claim C7, counterexample: the constant column `[5, 5]` is scaled to
`[0, 0]`, whose sample variance is 0, not 1 — so not every column of the
scaled output has unit standard deviation. -/
theorem scaler_constant_column_not_unit_variance :
    standard_scaler_fit_transform [[5, 5]] = [[0, 0]] ∧
    colVar [0, 0] ≠ 1 := by
  constructor
  · have h1 : colMean [(5 : ℝ), 5] = 5 := by
      norm_num [colMean]
    have h2 : colVar [(5 : ℝ), 5] = 0 := by
      norm_num [colVar, h1]
    have h3 : scaleOf [(5 : ℝ), 5] = 1 := by
      rw [scaleOf, h2, Real.sqrt_zero, handle_zeros]
      simp
    norm_num [standard_scaler_fit_transform, standardizeCol, h1, h3]
  · norm_num [colVar, colMean]

/-- Claim C7, amended: standard scaling preserves the matrix shape and
gives every column sample mean 0; a column attains sample variance 1
exactly when its input variance is nonzero, while a constant column is
mapped to all zeros (variance 0). -/
theorem scaler_shape_mean_variance (m : List (List ℝ)) :
    (standard_scaler_fit_transform m).length = m.length ∧
    (∀ c ∈ m, (standardizeCol c).length = c.length) ∧
    (∀ c ∈ m, colMean (standardizeCol c) = 0) ∧
    (∀ c ∈ m, colVar c ≠ 0 → colVar (standardizeCol c) = 1) :=
  ⟨List.length_map m _, fun c _ => List.length_map c _,
   fun c _ => colMean_standardize c, fun c _ hv => colVar_standardize c hv⟩

/-- Applies the C7 statement at the one-column matrix `[[1, 3]]`, whose
column has variance 1: the scaled column has mean 0 and variance 1. -/
theorem scaler_shape_mean_variance_witness :
    colMean (standardizeCol [1, 3]) = 0 ∧ colVar (standardizeCol [1, 3]) = 1 :=
  ⟨(scaler_shape_mean_variance [[1, 3]]).2.2.1 [1, 3] (by simp),
   (scaler_shape_mean_variance [[1, 3]]).2.2.2 [1, 3] (by simp)
     (by norm_num [colVar, colMean])⟩

/-- Claim C8: `load_and_preprocess_data` is deterministic — because line
61 fixes `random_state=42`, the ambient randomness is discarded and two
runs on identical input produce identical train/test splits and scaler. -/
theorem loader_deterministic (e1 e2 : ℕ) (df : DataFrame) :
    load_and_preprocess_data e1 df = load_and_preprocess_data e2 df := by
  cases h : load_preprocess_columns df with
  | error e => simp [load_and_preprocess_data, h]
  | ok d => simp [load_and_preprocess_data, h, train_test_split]

/-- Claim C9: the Scorer transforms with the already-fitted scaler and
never refits it — the scaler state after `detect_and_evaluate_fraud` is
exactly the state passed in, whatever the dataset, model and threshold. -/
theorem scorer_preserves_scaler (df : DataFrame)
    (model : List (List ℝ) → List (List ℝ)) (st : Scaler) (threshold : ℝ) :
    Except.map (fun r => r.2) (detect_and_evaluate_fraud df model st threshold) =
      Except.map (fun _ => st) (detect_preprocess df) := by
  cases h : detect_preprocess df with
  | error e => simp [detect_and_evaluate_fraud, h, Except.map]
  | ok d => simp [detect_and_evaluate_fraud, h, Except.map]
